import Mathlib

/-!
Verification of the BGMwebsite engine core (the `ObservableContentStore`
content synchronizer and the `BGM_Core` navigation/render controller).

The repository ships two near-identical engine revisions:
  * `src/unnamed/part_000` — modelled below in namespace `Rev0`;
  * `src/unnamed/part_002` — modelled below in namespace `Rev2`.
Code that is textually identical in both revisions is modelled once at the
top level.  JavaScript strings are modelled as `String`/`List Char`; the
host capabilities (DOM surfaces, `fetch`, timers, promises) are modelled by
explicit inputs and emitted event lists; machine state mutated in place by
the JS code is threaded explicitly.
-/

set_option maxRecDepth 4000

/-! ## Content synchronizer (`ObservableContentStore`)

`part_000` lines 30-96 and `part_002` lines 30-91.  The parsed JSON payload
type and its canonical serialization (`JSON.stringify`) are host
capabilities; we abstract them as a type `P` with a `stringify : P → String`
function.  Observer callbacks are identified by `Nat` tokens and an
invocation of observer `o` with payload `d` is recorded as the event
`(o, d)` in an emitted list (subscribers are invoked synchronously, so the
emitted list order is the invocation order). -/

/-- State of an `ObservableContentStore`: `observers` is the JS `Set` of
observer callbacks in insertion order, `data` the last parsed payload
(`null` initially, hence `Option`), `signature` the stored fingerprint
(`""` initially). -/
structure StoreState (P : Type) where
  observers : List Nat
  data : Option P
  signature : String
deriving DecidableEq, Repr

/-- `this.observers.add(observer)`: a JS `Set` keeps insertion order and
ignores an element that is already present. -/
def observersAdd (l : List Nat) (o : Nat) : List Nat :=
  if o ∈ l then l else l ++ [o]

/-- `subscribe(observer)` (identical in both revisions, part_000:40-46):
adds the observer and, when a payload is already loaded (`if (this.data)`;
a parsed snapshot object is truthy), invokes it immediately with it.
Returns the new state and the list of observer invocations performed. -/
def subscribe {P : Type} (s : StoreState P) (o : Nat) :
    StoreState P × List (Nat × P) :=
  let s' : StoreState P := { s with observers := observersAdd s.observers o }
  match s.data with
  | some d => (s', [(o, d)])
  | none => (s', [])

/-- The closure returned by `subscribe`: `() => this.observers.delete(observer)`.
It acts on the store's observer set current at call time. -/
def unsubscribe (l : List Nat) (o : Nat) : List Nat :=
  l.erase o

/-- `notify()` (part_000:48-52): invokes every observer with `this.data`
(only ever called when `this.data` has just been set to a parsed payload). -/
def notify {P : Type} (s : StoreState P) : List (Nat × P) :=
  match s.data with
  | some d => s.observers.map (fun o => (o, d))
  | none => []

/-- Tail of `load` after a successful fetch and parse (textually identical
in both revisions, part_000:64-71 / part_002:63-70):

    const nextSignature = JSON.stringify(nextData);
    if (nextSignature !== this.signature) {
      this.signature = nextSignature;
      this.data = nextData;
      this.notify();
    }
    return this.data;

Returns the new store state, the observer invocations performed, and the
value returned to the caller. -/
def applyPayload {P : Type} (stringify : P → String) (s : StoreState P)
    (nextData : P) : StoreState P × List (Nat × P) × Option P :=
  let nextSignature := stringify nextData
  if nextSignature = s.signature then
    (s, [], s.data)
  else
    let s' : StoreState P := { s with signature := nextSignature, data := some nextData }
    (s', notify s', s'.data)

/-- Outcome of the host `fetch` + `response.json()` pair awaited inside
`load`: a non-success transport response carrying its status code, a body
that fails to parse, or a parsed payload. -/
inductive FetchResult (P : Type) where
  | httpError (status : Nat)
  | parseError
  | ok (payload : P)
deriving DecidableEq

/-- The failure taxonomy of spec §7 for `load`. -/
inductive LoadError where
  | fetchFailure (status : Nat)
  | parseFailure
deriving DecidableEq, Repr

/-- Cache-defeating query value (both revisions, part_000:55 / part_002:55):
`force ? Date.now() : Math.floor(Date.now() / this.intervalMs)`.
`Date.now()` is a natural-number millisecond timestamp. -/
def cacheBust (force : Bool) (now intervalMs : Nat) : Nat :=
  if force then now else now / intervalMs

/-- Request URL built by `load` (both revisions, part_000:56-57):
`` `${this.contentUrl}${separator}v=${cacheBust}` `` with
`separator = this.contentUrl.includes("?") ? "&" : "?"`. -/
def requestUrl (contentUrl : String) (force : Bool) (now intervalMs : Nat) :
    String :=
  let separator := if contentUrl.data.contains '?' then "&" else "?"
  contentUrl ++ separator ++ "v=" ++ toString (cacheBust force now intervalMs)

namespace Rev0

/-- `load` of revision part_000 (lines 54-76).  The whole body sits in a
`try`/`catch`; a non-ok response or a parse failure is caught, logged with
`console.warn`, and the stale `this.data` is returned to the caller — no
failure is reported.  State is only mutated on the success path. -/
def load {P : Type} (stringify : P → String) (s : StoreState P)
    (r : FetchResult P) : StoreState P × List (Nat × P) × Option P :=
  match r with
  | .httpError _ => (s, [], s.data)
  | .parseError => (s, [], s.data)
  | .ok p => applyPayload stringify s p

end Rev0

namespace Rev2

/-- `load` of revision part_002 (lines 54-71).  There is no `catch`: a
non-ok response throws `` `Failed to load content.json (${status})` `` and a
parse failure propagates the `response.json()` rejection, both surfacing to
the caller; the stored state is untouched in either failure case. -/
def load {P : Type} (stringify : P → String) (s : StoreState P)
    (r : FetchResult P) :
    StoreState P × List (Nat × P) × Except LoadError (Option P) :=
  match r with
  | .httpError st => (s, [], .error (.fetchFailure st))
  | .parseError => (s, [], .error .parseFailure)
  | .ok p =>
    let out := applyPayload stringify s p
    (out.1, out.2.1, .ok out.2.2)

end Rev2

/-! ### Claims C1, C2, C8, C9 -/

/-- C1: on the success path of `load` (both revisions reduce to
`applyPayload`), a payload whose canonical fingerprint equals the stored
fingerprint causes no notification and leaves the stored snapshot and the
state untouched, returning the current snapshot; a differing fingerprint
swaps the snapshot, notifies every subscriber exactly once each, in
subscription order, with the new snapshot, and returns the new current
snapshot. -/
theorem load_fingerprint_notify {P : Type} (stringify : P → String)
    (s : StoreState P) (p : P) :
    (Rev0.load stringify s (.ok p) = applyPayload stringify s p ∧
     Rev2.load stringify s (.ok p) =
       ((applyPayload stringify s p).1, (applyPayload stringify s p).2.1,
        .ok (applyPayload stringify s p).2.2)) ∧
    (stringify p = s.signature →
       applyPayload stringify s p = (s, [], s.data)) ∧
    (stringify p ≠ s.signature →
       (applyPayload stringify s p).1.data = some p ∧
       (applyPayload stringify s p).1.signature = stringify p ∧
       (applyPayload stringify s p).1.observers = s.observers ∧
       (applyPayload stringify s p).2.1 = s.observers.map (fun o => (o, p)) ∧
       (applyPayload stringify s p).2.2 = some p ∧
       (s.observers.Nodup → ∀ o ∈ s.observers,
          ((applyPayload stringify s p).2.1.map Prod.fst).count o = 1)) := by
  refine ⟨⟨rfl, rfl⟩, ?_, ?_⟩
  · intro h
    simp [applyPayload, h]
  · intro h
    simp only [applyPayload, notify, if_neg h]
    refine ⟨trivial, trivial, trivial, trivial, trivial, ?_⟩
    intro hnd o ho
    have hmap : (List.map (fun o => (o, p)) s.observers).map Prod.fst
        = s.observers := by
      rw [List.map_map]
      exact List.map_id'' (fun _ => rfl) s.observers
    rw [hmap]
    exact List.count_eq_one_of_mem hnd ho

/-- Witness for C1: a concrete store with observers `[1, 2]`, payload `5`
stored under fingerprint `"5"`.  Re-loading `5` is a silent no-op; loading
`7` notifies both observers, in order, once each, with `7`. -/
theorem load_fingerprint_notify_witness :
    applyPayload toString (⟨[1, 2], some 5, "5"⟩ : StoreState Nat) 5 =
      (⟨[1, 2], some 5, "5"⟩, [], some 5) ∧
    (applyPayload toString (⟨[1, 2], some 5, "5"⟩ : StoreState Nat) 7).2.1 =
      [(1, 7), (2, 7)] ∧
    ((applyPayload toString (⟨[1, 2], some 5, "5"⟩ : StoreState Nat) 7).2.1.map
        Prod.fst).count 1 = 1 := by
  have h := load_fingerprint_notify toString
    (⟨[1, 2], some 5, "5"⟩ : StoreState Nat) 7
  have h5 := load_fingerprint_notify toString
    (⟨[1, 2], some 5, "5"⟩ : StoreState Nat) 5
  have hne := h.2.2 (by decide)
  exact ⟨h5.2.1 (by decide), hne.2.2.2.1,
    hne.2.2.2.2.2 (by decide) 1 (by decide)⟩

/-- C2 (code evaluation at the failing input): with observer `0` and
payload `42` stored under fingerprint `"42"`, a transport failure (HTTP
500) or an unparseable body makes revision part_002's `load` fail with
`fetchFailure 500` / `parseFailure`, state untouched — but revision
part_000's `load` returns the stale snapshot `42` normally, reporting no
failure to the caller at all (it is swallowed by the `catch` with a console
warning). -/
theorem load_failure_swallowed_rev0 :
    Rev0.load toString (⟨[0], some 42, "42"⟩ : StoreState Nat)
        (.httpError 500) = (⟨[0], some 42, "42"⟩, [], some 42) ∧
    Rev0.load toString (⟨[0], some 42, "42"⟩ : StoreState Nat)
        .parseError = (⟨[0], some 42, "42"⟩, [], some 42) ∧
    Rev2.load toString (⟨[0], some 42, "42"⟩ : StoreState Nat)
        (.httpError 500) =
      (⟨[0], some 42, "42"⟩, [], .error (.fetchFailure 500)) ∧
    Rev2.load toString (⟨[0], some 42, "42"⟩ : StoreState Nat)
        .parseError = (⟨[0], some 42, "42"⟩, [], .error .parseFailure) :=
  ⟨rfl, rfl, rfl, rfl⟩

/-- C8: when `force` is true the cache-defeating parameter is the current
timestamp; when false it is `⌊now / pollIntervalMs⌋`, so two
`load(force=false)` calls whose timestamps fall in the same poll window
(equal floored quotients) build requests with an identical cache-busting
parameter, hence identical URLs. -/
theorem cacheBust_poll_window (contentUrl : String) (t1 t2 intervalMs : Nat) :
    (∀ now, cacheBust true now intervalMs = now) ∧
    (∀ now, cacheBust false now intervalMs = now / intervalMs) ∧
    (t1 / intervalMs = t2 / intervalMs →
       requestUrl contentUrl false t1 intervalMs =
         requestUrl contentUrl false t2 intervalMs) := by
  refine ⟨fun _ => rfl, fun _ => rfl, fun h => ?_⟩
  simp [requestUrl, cacheBust, h]

/-- Witness for C8: timestamps 14000 and 14005 share the poll window of
width 7000, so both non-forced loads carry `v=2`. -/
theorem cacheBust_poll_window_witness :
    requestUrl "content.json" false 14000 7000 =
      requestUrl "content.json" false 14005 7000 :=
  (cacheBust_poll_window "content.json" 14000 14005 7000).2.2 (by decide)

/-- C9: `subscribe` registers the observer and, when a snapshot already
exists, invokes it immediately exactly once with that snapshot (no call
when none exists); the returned unsubscribe closure removes the observer,
removing it a second time is a no-op, and no other observer is affected. -/
theorem subscribe_unsubscribe_spec {P : Type} (s : StoreState P) (o : Nat)
    (hnd : s.observers.Nodup) :
    o ∈ (subscribe s o).1.observers ∧
    (subscribe s o).1.data = s.data ∧
    (subscribe s o).1.signature = s.signature ∧
    (∀ d, s.data = some d → (subscribe s o).2 = [(o, d)]) ∧
    (s.data = none → (subscribe s o).2 = []) ∧
    (subscribe s o).1.observers.Nodup ∧
    o ∉ unsubscribe (subscribe s o).1.observers o ∧
    unsubscribe (unsubscribe (subscribe s o).1.observers o) o =
      unsubscribe (subscribe s o).1.observers o ∧
    (∀ x, x ≠ o →
       (x ∈ unsubscribe (subscribe s o).1.observers o ↔
        x ∈ (subscribe s o).1.observers)) := by
  have hobs : (subscribe s o).1.observers = observersAdd s.observers o := by
    cases hd : s.data <;> simp [subscribe, hd]
  have hmem : o ∈ observersAdd s.observers o := by
    by_cases h : o ∈ s.observers <;> simp [observersAdd, h]
  have hnd' : (observersAdd s.observers o).Nodup := by
    by_cases h : o ∈ s.observers
    · simpa [observersAdd, h] using hnd
    · simp only [observersAdd, if_neg h]
      simp [List.nodup_append, hnd, h]
  have hnotmem : o ∉ unsubscribe (observersAdd s.observers o) o :=
    hnd'.not_mem_erase
  refine ⟨hobs ▸ hmem, ?_, ?_, ?_, ?_, hobs ▸ hnd', hobs ▸ hnotmem, ?_, ?_⟩
  · cases hd : s.data <;> simp [subscribe, hd]
  · cases hd : s.data <;> simp [subscribe, hd]
  · intro d hd; simp [subscribe, hd]
  · intro hd; simp [subscribe, hd]
  · rw [hobs]
    exact List.erase_of_not_mem hnotmem
  · intro x hx
    rw [hobs]
    exact List.mem_erase_of_ne hx

/-- Witness for C9: subscribing observer `4` to a store holding payload `9`
with existing observer `3`. -/
theorem subscribe_unsubscribe_spec_witness :
    (4 ∈ (subscribe (⟨[3], some 9, "9"⟩ : StoreState Nat) 4).1.observers) ∧
    (subscribe (⟨[3], some 9, "9"⟩ : StoreState Nat) 4).2 = [(4, 9)] ∧
    unsubscribe (unsubscribe
        (subscribe (⟨[3], some 9, "9"⟩ : StoreState Nat) 4).1.observers 4) 4 =
      unsubscribe
        (subscribe (⟨[3], some 9, "9"⟩ : StoreState Nat) 4).1.observers 4 := by
  have h := subscribe_unsubscribe_spec (⟨[3], some 9, "9"⟩ : StoreState Nat) 4
    (by decide)
  exact ⟨h.1, h.2.2.2.1 9 rfl, h.2.2.2.2.2.2.2.1⟩

/-! ## `escapeHTML` (part_000:9-16 / part_002:9-16, identical)

    function escapeHTML(value) {
      return String(value ?? "")
        .replaceAll("&", "&amp;")
        .replaceAll("<", "&lt;")
        .replaceAll(">", "&gt;")
        .replaceAll('"', "&quot;")
        .replaceAll("'", "&#39;");
    }

The input has already been coerced to a string; we model strings as
`List Char`.  `replaceAll` with a single-character needle replaces every
occurrence of that character, left to right. -/

/-- The double-quote character `"`. -/
def quoteC : Char := Char.ofNat 34

/-- The apostrophe character. -/
def aposC : Char := Char.ofNat 39

/-- Entity for `&`. -/
def ampE : List Char := ['&', 'a', 'm', 'p', ';']

/-- Entity for `<`. -/
def ltE : List Char := ['&', 'l', 't', ';']

/-- Entity for `>`. -/
def gtE : List Char := ['&', 'g', 't', ';']

/-- Entity for the double quote. -/
def quotE : List Char := ['&', 'q', 'u', 'o', 't', ';']

/-- Entity for the apostrophe. -/
def aposE : List Char := ['&', '#', '3', '9', ';']

/-- The five substitution entities emitted by `escapeHTML`. -/
def entities : List (List Char) := [ampE, ltE, gtE, quotE, aposE]

/-- `str.replaceAll(needle, repl)` for a one-character needle. -/
def replaceAllChar (needle : Char) (repl : List Char) : List Char → List Char
  | [] => []
  | c :: cs => (if c = needle then repl else [c]) ++ replaceAllChar needle repl cs

/-- `escapeHTML` on character lists: the five `replaceAll` passes applied
in source order (innermost first). -/
def escapeHTMLData (s : List Char) : List Char :=
  replaceAllChar aposC aposE
    (replaceAllChar quoteC quotE
      (replaceAllChar '>' gtE
        (replaceAllChar '<' ltE
          (replaceAllChar '&' ampE s))))

/-- `escapeHTML` on `String`. -/
def escapeHTML (s : String) : String := ⟨escapeHTMLData s.data⟩

/-- The per-character substitution that the five sequential passes amount
to (the first pass eliminates every input `&` before the later passes
introduce entity ampersands, so the passes never rewrite each other's
output). -/
def escChar (c : Char) : List Char :=
  if c = '&' then ampE
  else if c = '<' then ltE
  else if c = '>' then gtE
  else if c = quoteC then quotE
  else if c = aposC then aposE
  else [c]

theorem replaceAllChar_append (n : Char) (r a b : List Char) :
    replaceAllChar n r (a ++ b) =
      replaceAllChar n r a ++ replaceAllChar n r b := by
  induction a with
  | nil => rfl
  | cons c cs ih => simp [replaceAllChar, ih]

theorem escapeHTMLData_cons (c : Char) (cs : List Char) :
    escapeHTMLData (c :: cs) = escChar c ++ escapeHTMLData cs := by
  show escapeHTMLData (([c] : List Char) ++ cs) = _
  by_cases h1 : c = '&'
  · subst h1
    simp [escapeHTMLData, replaceAllChar, replaceAllChar_append, escChar,
      ampE, ltE, gtE, quotE, aposE, quoteC, aposC]
  · by_cases h2 : c = '<'
    · subst h2
      simp [escapeHTMLData, replaceAllChar, replaceAllChar_append, escChar,
        ampE, ltE, gtE, quotE, aposE, quoteC, aposC]
    · by_cases h3 : c = '>'
      · subst h3
        simp [escapeHTMLData, replaceAllChar, replaceAllChar_append, escChar,
          ampE, ltE, gtE, quotE, aposE, quoteC, aposC]
      · by_cases h4 : c = quoteC
        · subst h4
          simp [escapeHTMLData, replaceAllChar, replaceAllChar_append, escChar,
            ampE, ltE, gtE, quotE, aposE, quoteC, aposC]
        · by_cases h5 : c = aposC
          · subst h5
            simp [escapeHTMLData, replaceAllChar, replaceAllChar_append,
              escChar, ampE, ltE, gtE, quotE, aposE, quoteC, aposC]
          · simp [escapeHTMLData, replaceAllChar, replaceAllChar_append,
              escChar, h1, h2, h3, h4, h5,
              show ¬ c = 'a' ∨ True from Or.inr trivial]

/-- The special characters rewritten by `escapeHTML`. -/
def specials : List Char := ['&', '<', '>', quoteC, aposC]

/-- Lists in which every occurrence of `&` begins one of the five
substitution entities: built from entity blocks and non-`&` characters. -/
inductive AmpOk : List Char → Prop
  | nil : AmpOk []
  | cons (c : Char) (cs : List Char) : c ≠ '&' → AmpOk cs → AmpOk (c :: cs)
  | ent (e : List Char) (cs : List Char) : e ∈ entities → AmpOk cs →
      AmpOk (e ++ cs)

theorem ampOk_escapeHTMLData (s : List Char) : AmpOk (escapeHTMLData s) := by
  induction s with
  | nil => exact AmpOk.nil
  | cons c cs ih =>
    rw [escapeHTMLData_cons]
    by_cases h1 : c = '&'
    · exact AmpOk.ent _ _ (by subst h1; simp [escChar, entities]) ih
    · by_cases h2 : c = '<'
      · exact AmpOk.ent _ _ (by subst h2; simp [escChar, entities]) ih
      · by_cases h3 : c = '>'
        · exact AmpOk.ent _ _ (by subst h3; simp [escChar, entities]) ih
        · by_cases h4 : c = quoteC
          · exact AmpOk.ent _ _
              (by subst h4; simp [escChar, entities, quoteC, aposC]) ih
          · by_cases h5 : c = aposC
            · exact AmpOk.ent _ _
                (by subst h5; simp [escChar, entities, quoteC, aposC]) ih
            · have : escChar c = [c] := by simp [escChar, h1, h2, h3, h4, h5]
              rw [this]
              exact AmpOk.cons c _ h1 ih

/-- Every entity starts with `&` and contains no further `&`. -/
theorem entities_shape : ∀ e ∈ entities, ∃ t, e = '&' :: t ∧ '&' ∉ t := by
  intro e he
  simp only [entities, List.mem_cons, List.not_mem_nil, or_false] at he
  rcases he with rfl | rfl | rfl | rfl | rfl
  · exact ⟨['a', 'm', 'p', ';'], rfl, by decide⟩
  · exact ⟨['l', 't', ';'], rfl, by decide⟩
  · exact ⟨['g', 't', ';'], rfl, by decide⟩
  · exact ⟨['q', 'u', 'o', 't', ';'], rfl, by decide⟩
  · exact ⟨['#', '3', '9', ';'], rfl, by decide⟩

/-- Splitting `t ++ cs` at an `&` that cannot lie inside `t` locates the
`&` inside `cs`. -/
theorem split_past_block (t : List Char) (ht : '&' ∉ t) :
    ∀ cs pre suf, t ++ cs = pre ++ '&' :: suf →
      ∃ pre2, pre = t ++ pre2 ∧ cs = pre2 ++ '&' :: suf := by
  induction t with
  | nil => exact fun cs pre suf hEq => ⟨pre, rfl, hEq⟩
  | cons a t ih =>
    intro cs pre suf hEq
    cases pre with
    | nil =>
      rw [List.nil_append, List.cons_append] at hEq
      obtain ⟨rfl, -⟩ := List.cons.inj hEq
      exact absurd (List.mem_cons_self _ _) ht
    | cons b pre' =>
      rw [List.cons_append, List.cons_append] at hEq
      obtain ⟨rfl, h2⟩ := List.cons.inj hEq
      obtain ⟨pre2, hp, hc⟩ :=
        ih (fun hmem => ht (List.mem_cons_of_mem a hmem)) cs pre' suf h2
      exact ⟨pre2, by rw [hp, List.cons_append], hc⟩

theorem ampOk_split {l : List Char} (h : AmpOk l) :
    ∀ pre suf, l = pre ++ '&' :: suf →
      ∃ e, e ∈ entities ∧ ∃ t, '&' :: suf = e ++ t := by
  induction h with
  | nil =>
    intro pre suf hEq
    exact absurd hEq.symm (by simp)
  | cons c cs hc _ ih =>
    intro pre suf hEq
    cases pre with
    | nil =>
      simp only [List.nil_append, List.cons.injEq] at hEq
      exact absurd hEq.1 hc
    | cons b pre' =>
      simp only [List.cons_append, List.cons.injEq] at hEq
      exact ih pre' suf hEq.2
  | ent e cs he _ ih =>
    intro pre suf hEq
    obtain ⟨t, het, ht⟩ := entities_shape e he
    cases pre with
    | nil =>
      rw [List.nil_append] at hEq
      exact ⟨e, he, cs, hEq.symm⟩
    | cons b pre' =>
      rw [het] at hEq
      rw [List.cons_append, List.cons_append] at hEq
      obtain ⟨-, h2⟩ := List.cons.inj hEq
      obtain ⟨pre2, -, hcs⟩ := split_past_block t ht cs pre' suf h2
      exact ih pre2 suf hcs

/-- No character of any substitution entity is `<`, `>`, `"` or the
apostrophe. -/
theorem mem_entity_safe : ∀ e ∈ entities, ∀ c ∈ e,
    c ≠ '<' ∧ c ≠ '>' ∧ c ≠ quoteC ∧ c ≠ aposC := by
  decide

/-- C10: `escapeHTML` produces no `<`, `>`, `"` or apostrophe at all; every
occurrence of `&` in the output begins one of the five substitution
entities; and an input free of all five special characters is returned
unchanged.  The `String`-level wrapper agrees with the character-list
computation. -/
theorem escapeHTML_spec (s : List Char) :
    (∀ c ∈ escapeHTMLData s, c ≠ '<' ∧ c ≠ '>' ∧ c ≠ quoteC ∧ c ≠ aposC) ∧
    (∀ pre suf, escapeHTMLData s = pre ++ '&' :: suf →
       ∃ e, e ∈ entities ∧ ∃ t, '&' :: suf = e ++ t) ∧
    ((∀ c ∈ s, c ∉ specials) → escapeHTMLData s = s) ∧
    escapeHTML ⟨s⟩ = ⟨escapeHTMLData s⟩ := by
  refine ⟨?_, fun pre suf h => ampOk_split (ampOk_escapeHTMLData s) pre suf h,
    ?_, rfl⟩
  · induction s with
    | nil => intro c hc; exact absurd hc (by simp [escapeHTMLData, replaceAllChar])
    | cons a as ih =>
      intro c hc
      rw [escapeHTMLData_cons] at hc
      rcases List.mem_append.1 hc with hhead | htail
      · by_cases hsp : a ∈ specials
        · have hent : escChar a ∈ entities := by
            simp only [specials, List.mem_cons, List.not_mem_nil,
              or_false] at hsp
            rcases hsp with rfl | rfl | rfl | rfl | rfl <;> decide
          exact mem_entity_safe (escChar a) hent c hhead
        · simp only [specials, List.mem_cons, List.not_mem_nil,
            or_false] at hsp
          push_neg at hsp
          have hone : escChar a = [a] := by
            simp [escChar, hsp.1, hsp.2.1, hsp.2.2.1, hsp.2.2.2.1,
              hsp.2.2.2.2]
          rw [hone] at hhead
          simp only [List.mem_singleton] at hhead
          subst hhead
          exact ⟨hsp.2.1, hsp.2.2.1, hsp.2.2.2.1, hsp.2.2.2.2⟩
      · exact ih c htail
  · intro hclean
    induction s with
    | nil => rfl
    | cons a as ih =>
      rw [escapeHTMLData_cons]
      have ha := hclean a (List.mem_cons_self a as)
      have : escChar a = [a] := by
        simp only [specials, List.mem_cons, List.mem_singleton] at ha
        push_neg at ha
        simp [escChar, ha.1, ha.2.1, ha.2.2.1, ha.2.2.2.1, ha.2.2.2.2]
      rw [this, ih (fun c hcm => hclean c (List.mem_cons_of_mem a hcm))]
      rfl

/-- Witness for C10: the clean input `"a"` is unchanged; the escaped
ampersand output decomposes at its `&` into an entity; and `'a'` is not a
dangerous output character. -/
theorem escapeHTML_spec_witness :
    escapeHTMLData ['a'] = ['a'] ∧
    (∃ e, e ∈ entities ∧ ∃ t, '&' :: ['a', 'm', 'p', ';'] = e ++ t) ∧
    (('a' : Char) ≠ '<' ∧ ('a' : Char) ≠ '>' ∧ ('a' : Char) ≠ quoteC ∧
      ('a' : Char) ≠ aposC) := by
  have h1 := escapeHTML_spec ['a']
  have h2 := escapeHTML_spec ['&']
  exact ⟨h1.2.2.1 (by decide), h2.2.1 [] ['a', 'm', 'p', ';'] (by decide),
    h1.1 'a' (by decide)⟩

/-! ## Navigation/render controller (`BGM_Core`)

`part_000` lines 98-272 and `part_002` lines 93-266.  The controller's
mutable `this.state` (`content`, `articlesById`, `currentRoute`,
`isNavigating`) plus the externally visible `window.location.hash` form the
model state.  Rendering into the mount/nav/title surfaces is an excluded
external capability; what matters for the claims is *which route is
committed against which snapshot*, so each `renderRoute` commit (the
synchronous `this.state.currentRoute = route` assignment) is recorded in a
`commits` log together with the snapshot active at that moment.

Event-loop scheduling is explicit: setting `window.location.hash`
synchronously changes the hash but the `hashchange` event that triggers
`handleRouteChange` is delivered later as its own task (`Ev.hashFired`);
completion of the animated transition / before-paint commit promise is
delivered as `Ev.settle` carrying the fulfilled/rejected outcome. -/

/-- An article; only its `id` (the routing key) is consulted by the
synchronizer/controller core. -/
structure Article where
  id : String
deriving DecidableEq, Repr

/-- `content.meta`; only `defaultRoute` is consulted (`none` models an
absent field). -/
structure Meta where
  defaultRoute : Option String
deriving DecidableEq, Repr

/-- A parsed content snapshot, projected to the fields the controller core
reads: `meta.defaultRoute` and the article list. -/
structure Snapshot where
  meta : Option Meta
  articles : List Article
deriving DecidableEq, Repr

/-- `new Map((content.articles || []).map((a) => [a.id, a]))`. -/
def buildIndex (snap : Snapshot) : List (String × Article) :=
  snap.articles.map (fun a => (a.id, a))

/-- The article ids of a snapshot. -/
def idsOf (snap : Snapshot) : List String :=
  snap.articles.map Article.id

/-- `Map.has(key)`. -/
def hasKey (m : List (String × Article)) (k : String) : Bool :=
  m.any (fun p => p.1 == k)

/-- Controller state: `content`/`articlesById`/`currentRoute`/`isNavigating`
are `this.state`; `hash` is `window.location.hash` (`""` or `"#…"`);
`animated` is the capability flag
`options.enableViewTransitions && "startViewTransition" in document`
(fixed per session); `commits` is the ghost log of committed
(route, active snapshot) pairs. -/
structure CoreState where
  content : Option Snapshot
  articlesById : List (String × Article)
  currentRoute : String
  isNavigating : Bool
  hash : String
  animated : Bool
  commits : List (String × Option Snapshot)
deriving DecidableEq, Repr

/-- Initial controller state (constructor, part_000:110-115): no content,
empty index, `currentRoute = "home"`, not navigating, commit log empty.
The session's hash and animation capability are parameters. -/
def initCore (animated : Bool) (hash0 : String) : CoreState :=
  { content := none, articlesById := [], currentRoute := "home",
    isNavigating := false, hash := hash0, animated := animated,
    commits := [] }

/-- `value.replace(/^#/, "")`: strip one leading `#`. -/
def stripHashMark (s : String) : String :=
  match s.data with
  | c :: cs => if c = '#' then ⟨cs⟩ else s
  | [] => s

/-- `.trim()` (modelled over the character list with Lean's whitespace
predicate). -/
def jsTrim (s : String) : String :=
  ⟨((s.data.dropWhile (fun c => c.isWhitespace)).reverse.dropWhile
      (fun c => c.isWhitespace)).reverse⟩

/-- JS `a || b` on strings, where the empty string (and an absent value,
modelled as `""`) is falsy. -/
def jsOr (a b : String) : String :=
  if a = "" then b else a

/-- `this.state.content?.meta?.defaultRoute` with absent values collapsed
to the falsy `""`. -/
def defaultRouteOf : Option Snapshot → String
  | some snap =>
    match snap.meta with
    | some m => m.defaultRoute.getD ""
    | none => ""
  | none => ""

/-- `parseHashRoute()` (part_000:151-154 / part_002:142-145, identical):
`value || content?.meta?.defaultRoute || "home"` after stripping the `#`
and trimming. -/
def parseHashRoute (s : CoreState) : String :=
  let value := jsTrim (stripHashMark s.hash)
  jsOr value (jsOr (defaultRouteOf s.content) "home")

/-- Events delivered to the controller by the host event loop. -/
inductive Ev where
  | content (snap : Snapshot)
  | navTo (route : String)
  | hashFired
  | hashSet (v : String)
  | settle (fulfilled : Bool)
deriving DecidableEq, Repr

/-- The callback registered via
`document.startViewTransition(…).finished.finally(() => { this.state.isNavigating = false; })`
(part_000:252-256 / part_002:248-252).  `finally` runs it whether
`finished` fulfils or rejects, so the outcome argument is ignored. -/
def onTransitionFinished (_fulfilled : Bool) (s : CoreState) : CoreState :=
  { s with isNavigating := false }

/-- The callback registered via
`commitDOM().finally(() => { this.state.isNavigating = false; })` on the
non-animated path (part_000:258-260 / part_002:254-256). -/
def onCommitFinished (_fulfilled : Bool) (s : CoreState) : CoreState :=
  { s with isNavigating := false }

namespace Rev0

/-- `normalizeRoute` of part_000 (lines 156-164): fixed literals
`home`/`latest`/`watch`, else an `articlesById` key, else `home`. -/
def normalizeRoute (routeCandidate : String)
    (articlesById : List (String × Article)) : String :=
  if (["home", "latest", "watch"] : List String).contains routeCandidate then
    routeCandidate
  else if hasKey articlesById routeCandidate then
    routeCandidate
  else
    "home"

/-- A route token part_000 treats as valid against a snapshot. -/
def validRoute (r : String) (snap : Snapshot) : Prop :=
  r = "home" ∨ r = "latest" ∨ r = "watch" ∨ r ∈ idsOf snap

instance (r : String) (snap : Snapshot) : Decidable (validRoute r snap) := by
  unfold validRoute
  infer_instance

/-- `renderRoute` of part_000 (lines 220-262): bail out only when no
content is loaded — there is NO in-flight guard; commit `currentRoute`,
set the in-flight flag, and hand the DOM mutation to the
before-paint/transition machinery (whose completion arrives as
`Ev.settle`). -/
def renderRoute (route : String) (s : CoreState) : CoreState :=
  match s.content with
  | none => s
  | some _ =>
    { s with currentRoute := route, isNavigating := true,
             commits := s.commits ++ [(route, s.content)] }

/-- `navigate` of part_000 (lines 166-174): normalize, then either request
a hash change (the render then rides on the `hashchange` notification) or
render directly when the hash already matches. -/
def navigate (route : String) (s : CoreState) : CoreState :=
  let normalizedRoute := normalizeRoute route s.articlesById
  let targetHash := "#" ++ normalizedRoute
  if s.hash ≠ targetHash then
    { s with hash := targetHash }
  else
    renderRoute normalizedRoute s

/-- `handleRouteChange` of part_000 (lines 176-184). -/
def handleRouteChange (s : CoreState) : CoreState :=
  let requestedRoute := parseHashRoute s
  let normalizedRoute := normalizeRoute requestedRoute s.articlesById
  if normalizedRoute ≠ requestedRoute then
    navigate normalizedRoute s
  else
    renderRoute normalizedRoute s

/-- `onContentUpdate` of part_000 (lines 141-149): swap the snapshot,
rebuild the index, repaint navigation (external surface), and re-render the
*current* route — but only when no transition is in flight; a mid-transition
update performs no render then or later. -/
def onContentUpdate (snap : Snapshot) (s : CoreState) : CoreState :=
  let s' := { s with content := some snap, articlesById := buildIndex snap }
  if s'.isNavigating then s' else renderRoute s'.currentRoute s'

/-- One event-loop task of the part_000 controller. -/
def step (s : CoreState) : Ev → CoreState
  | .content snap => onContentUpdate snap s
  | .navTo r => navigate r s
  | .hashFired => handleRouteChange s
  | .hashSet v => { s with hash := v }
  | .settle o =>
    if s.animated then onTransitionFinished o s else onCommitFinished o s

/-- Run the part_000 controller from its initial state over a list of
delivered events. -/
def run (animated : Bool) (hash0 : String) (evs : List Ev) : CoreState :=
  evs.foldl step (initCore animated hash0)

end Rev0

namespace Rev2

/-- `normalizeRoute` of part_002 (lines 147-155): fixed literals
`home`/`latest`, else an `articlesById` key, else `home`. -/
def normalizeRoute (routeCandidate : String)
    (articlesById : List (String × Article)) : String :=
  if routeCandidate = "home" ∨ routeCandidate = "latest" then
    routeCandidate
  else if hasKey articlesById routeCandidate then
    routeCandidate
  else
    "home"

/-- A route token part_002 treats as valid against a snapshot. -/
def validRoute (r : String) (snap : Snapshot) : Prop :=
  r = "home" ∨ r = "latest" ∨ r ∈ idsOf snap

instance (r : String) (snap : Snapshot) : Decidable (validRoute r snap) := by
  unfold validRoute
  infer_instance

/-- `renderRoute` of part_002 (lines 217-258): bail out when no content is
loaded OR when a transition is already in flight (the request is dropped,
not queued); otherwise commit and start the transition. -/
def renderRoute (route : String) (s : CoreState) : CoreState :=
  match s.content with
  | none => s
  | some _ =>
    if s.isNavigating then s
    else
      { s with currentRoute := route, isNavigating := true,
               commits := s.commits ++ [(route, s.content)] }

/-- `navigate` of part_002 (lines 157-165), same shape as part_000's. -/
def navigate (route : String) (s : CoreState) : CoreState :=
  let normalizedRoute := normalizeRoute route s.articlesById
  let targetHash := "#" ++ normalizedRoute
  if s.hash ≠ targetHash then
    { s with hash := targetHash }
  else
    renderRoute normalizedRoute s

/-- `handleRouteChange` of part_002 (lines 167-175). -/
def handleRouteChange (s : CoreState) : CoreState :=
  let requestedRoute := parseHashRoute s
  let normalizedRoute := normalizeRoute requestedRoute s.articlesById
  if normalizedRoute ≠ requestedRoute then
    navigate normalizedRoute s
  else
    renderRoute normalizedRoute s

/-- `onContentUpdate` of part_002 (lines 135-140): swap the snapshot,
rebuild the index, repaint navigation (external surface), then run
`handleRouteChange()` unconditionally (whose `renderRoute` drops the
render when a transition is in flight). -/
def onContentUpdate (snap : Snapshot) (s : CoreState) : CoreState :=
  handleRouteChange { s with content := some snap,
                             articlesById := buildIndex snap }

/-- One event-loop task of the part_002 controller. -/
def step (s : CoreState) : Ev → CoreState
  | .content snap => onContentUpdate snap s
  | .navTo r => navigate r s
  | .hashFired => handleRouteChange s
  | .hashSet v => { s with hash := v }
  | .settle o =>
    if s.animated then onTransitionFinished o s else onCommitFinished o s

/-- Run the part_002 controller from its initial state over a list of
delivered events. -/
def run (animated : Bool) (hash0 : String) (evs : List Ev) : CoreState :=
  evs.foldl step (initCore animated hash0)

end Rev2

/-! ### Concrete scenario data -/

/-- A snapshot holding the single article `a1`. -/
def snapA : Snapshot := { meta := none, articles := [{ id := "a1" }] }

/-- A snapshot holding the single article `b1` (so `a1` has disappeared). -/
def snapB : Snapshot := { meta := none, articles := [{ id := "b1" }] }

/-! ### Claims C3, C4, C5, C6, C7 -/

theorem hasKey_buildIndex (snap : Snapshot) (k : String) :
    hasKey (buildIndex snap) k = true ↔ k ∈ idsOf snap := by
  simp [hasKey, buildIndex, idsOf, List.any_eq_true, List.mem_map]

/-- The part_002 index (`articlesById`) always matches the stored snapshot:
they are only ever written together in `onContentUpdate`. -/
def Consistent (s : CoreState) : Prop :=
  ∀ snap, s.content = some snap → s.articlesById = buildIndex snap

namespace Rev2

/-- Every logged commit paired a route with the snapshot active at commit
time, and that route was valid against that snapshot. -/
def CommitsOk (s : CoreState) : Prop :=
  ∀ p ∈ s.commits, ∃ snap, p.2 = some snap ∧ validRoute p.1 snap

theorem normalize_valid (x : String) (snap : Snapshot) :
    validRoute (normalizeRoute x (buildIndex snap)) snap := by
  unfold normalizeRoute validRoute
  by_cases h1 : x = "home" ∨ x = "latest"
  · rw [if_pos h1]
    rcases h1 with h | h
    · exact Or.inl h
    · exact Or.inr (Or.inl h)
  · rw [if_neg h1]
    by_cases h2 : hasKey (buildIndex snap) x = true
    · rw [if_pos h2]
      exact Or.inr (Or.inr ((hasKey_buildIndex snap x).1 h2))
    · rw [if_neg h2]
      exact Or.inl rfl

theorem renderRoute_ok (route : String) (s : CoreState) (hc : Consistent s)
    (hk : CommitsOk s)
    (hv : ∀ snap, s.content = some snap → validRoute route snap) :
    Consistent (renderRoute route s) ∧ CommitsOk (renderRoute route s) := by
  cases hcon : s.content with
  | none => simpa [renderRoute, hcon] using ⟨hc, hk⟩
  | some snap =>
    by_cases hnav : s.isNavigating
    · simpa [renderRoute, hcon, hnav] using ⟨hc, hk⟩
    · constructor
      · intro snap' h'
        simp only [renderRoute, hcon, if_neg hnav, Option.some.injEq] at h' ⊢
        exact h' ▸ hc snap hcon
      · intro p hp
        simp only [renderRoute, hcon, if_neg hnav, List.mem_append,
          List.mem_singleton] at hp
        rcases hp with hp | rfl
        · exact hk p hp
        · exact ⟨snap, by simp [hcon], hv snap hcon⟩

theorem navigate_ok (route : String) (s : CoreState) (hc : Consistent s)
    (hk : CommitsOk s) :
    Consistent (navigate route s) ∧ CommitsOk (navigate route s) := by
  unfold navigate
  by_cases hh : s.hash ≠ "#" ++ normalizeRoute route s.articlesById
  · simpa [hh] using ⟨hc, hk⟩
  · rw [if_neg hh]
    refine renderRoute_ok _ s hc hk ?_
    intro snap hcon
    rw [hc snap hcon]
    exact normalize_valid route snap

theorem handleRouteChange_ok (s : CoreState) (hc : Consistent s)
    (hk : CommitsOk s) :
    Consistent (handleRouteChange s) ∧ CommitsOk (handleRouteChange s) := by
  unfold handleRouteChange
  by_cases hne : normalizeRoute (parseHashRoute s) s.articlesById ≠
      parseHashRoute s
  · rw [if_pos hne]
    exact navigate_ok _ s hc hk
  · rw [if_neg hne]
    refine renderRoute_ok _ s hc hk ?_
    intro snap hcon
    rw [hc snap hcon]
    exact normalize_valid _ snap

theorem step_ok (s : CoreState) (e : Ev) (hc : Consistent s)
    (hk : CommitsOk s) : Consistent (step s e) ∧ CommitsOk (step s e) := by
  cases e with
  | content snap =>
    refine handleRouteChange_ok _ ?_ ?_
    · intro snap' h'
      simp only [Option.some.injEq] at h'
      simp [← h']
    · exact hk
  | navTo r => exact navigate_ok r s hc hk
  | hashFired => exact handleRouteChange_ok s hc hk
  | hashSet v => exact ⟨fun snap h => hc snap h, hk⟩
  | settle o =>
    cases hb : s.animated <;>
      simp only [step, hb, Bool.false_eq_true, if_false, if_true,
        onTransitionFinished, onCommitFinished] <;>
      exact ⟨fun snap h => hc snap h, hk⟩

theorem run_ok (animated : Bool) (hash0 : String) (evs : List Ev) :
    Consistent (run animated hash0 evs) ∧ CommitsOk (run animated hash0 evs) := by
  suffices h : ∀ (l : List Ev) (s : CoreState), Consistent s → CommitsOk s →
      Consistent (l.foldl step s) ∧ CommitsOk (l.foldl step s) by
    refine h evs (initCore animated hash0) ?_ ?_
    · intro snap hsnap
      simp [initCore] at hsnap
    · intro p hp
      simp [initCore] at hp
  intro l
  induction l with
  | nil => exact fun s hc hk => ⟨hc, hk⟩
  | cons e l ih =>
    intro s hc hk
    exact ih (step s e) (step_ok s e hc hk).1 (step_ok s e hc hk).2

end Rev2

/-- C3 (code evaluation at the failing input): with snapshot `snapA`
loaded, `navigate("a1")` is called twice in immediate succession (no
`settle` between them, so the in-flight transition has not finished).
Revision part_000, which has no in-flight guard, commits `a1` twice — a
double render; revision part_002 drops the second request (and here even
the first one, because the content render's transition still holds the
guard), so after the transition settles the committed route is still
`home`, not the navigation target, and nothing was queued. -/
theorem navigate_midflight_not_coalesced :
    (Rev0.run true "" [.content snapA, .navTo "a1", .navTo "a1",
        .hashFired]).commits =
      [("home", some snapA), ("a1", some snapA), ("a1", some snapA)] ∧
    (Rev2.run true "" [.content snapA, .navTo "a1", .navTo "a1", .hashFired,
        .settle true]).commits = [("home", some snapA)] ∧
    (Rev2.run true "" [.content snapA, .navTo "a1", .navTo "a1", .hashFired,
        .settle true]).currentRoute = "home" ∧
    (Rev2.run true "" [.content snapA, .navTo "a1", .navTo "a1", .hashFired,
        .settle true]).isNavigating = false := by
  decide

/-- C4 counterexample: in revision part_000, after committing the valid
article route `a1` (valid against `snapA`) and finishing that transition,
a content update to `snapB` — from which `a1` has disappeared — makes
`onContentUpdate` re-commit `currentRoute = "a1"` against the now-active
`snapB`, a snapshot against which `a1` is not a valid route. -/
theorem commit_validity_counterexample :
    (("a1", some snapB) ∈ (Rev0.run true "" [.content snapA, .navTo "a1",
        .hashFired, .settle true, .content snapB]).commits) ∧
    (Rev0.run true "" [.content snapA, .navTo "a1", .hashFired, .settle true,
        .content snapB]).currentRoute = "a1" ∧
    (Rev0.run true "" [.content snapA, .navTo "a1", .hashFired, .settle true,
        .content snapB]).content = some snapB ∧
    ¬ Rev0.validRoute "a1" snapB := by
  decide

/-- C4 (amended): in revision part_002, every route ever committed (hence
`currentRoute` after any commit) was valid — a fixed literal or an
`articlesById` key — against the snapshot active at the time of that
commit, for every reachable controller state. -/
theorem commit_validity_rev2 (animated : Bool) (hash0 : String)
    (evs : List Ev) :
    ∀ p ∈ (Rev2.run animated hash0 evs).commits,
      ∃ snap, p.2 = some snap ∧ Rev2.validRoute p.1 snap :=
  (Rev2.run_ok animated hash0 evs).2

/-- Witness for the amended C4: the first content render of part_002
commits `home` against `snapA`, and the theorem certifies it valid. -/
theorem commit_validity_rev2_witness :
    ∃ snap, (some snapA : Option Snapshot) = some snap ∧
      Rev2.validRoute "home" snap :=
  commit_validity_rev2 true "" [.content snapA] ("home", some snapA)
    (by decide)

/-- C5 (code evaluation at the failing input): a new snapshot `snapB`
arrives while the `snapA` render's transition is in flight.  In both
revisions the index and stored snapshot are swapped, but the re-render is
skipped (part_000) or dropped by the guard (part_002) and is NOT performed
after the transition settles: the commit log never acquires a commit
against `snapB` — the refresh is lost, not deferred. -/
theorem content_refresh_midflight_lost :
    (Rev0.run true "" [.content snapA, .content snapB, .settle true]).commits =
      [("home", some snapA)] ∧
    (Rev0.run true "" [.content snapA, .content snapB,
        .settle true]).content = some snapB ∧
    (Rev0.run true "" [.content snapA, .content snapB,
        .settle true]).isNavigating = false ∧
    (Rev2.run true "" [.content snapA, .content snapB, .settle true]).commits =
      [("home", some snapA)] ∧
    (Rev2.run true "" [.content snapA, .content snapB,
        .settle true]).content = some snapB ∧
    (Rev2.run true "" [.content snapA, .content snapB,
        .settle true]).isNavigating = false := by
  decide

/-- C6: `normalizeRoute` of both revisions is total (a Lean function) and
idempotent; a token is returned unchanged exactly when it is one of the
revision's fixed literal routes or a key of `articlesById`; every other
token is coerced to the literal `home`. -/
theorem normalizeRoute_total_idempotent (x : String)
    (m : List (String × Article)) :
    (Rev0.normalizeRoute (Rev0.normalizeRoute x m) m =
      Rev0.normalizeRoute x m) ∧
    (Rev2.normalizeRoute (Rev2.normalizeRoute x m) m =
      Rev2.normalizeRoute x m) ∧
    (Rev0.normalizeRoute x m = x ↔
      ((["home", "latest", "watch"] : List String).contains x = true ∨
        hasKey m x = true)) ∧
    (Rev2.normalizeRoute x m = x ↔
      (x = "home" ∨ x = "latest" ∨ hasKey m x = true)) ∧
    (¬ ((["home", "latest", "watch"] : List String).contains x = true ∨
        hasKey m x = true) → Rev0.normalizeRoute x m = "home") ∧
    (¬ (x = "home" ∨ x = "latest" ∨ hasKey m x = true) →
      Rev2.normalizeRoute x m = "home") := by
  have h0 : ∀ y : String,
      (["home", "latest", "watch"] : List String).contains y = true ∨
        hasKey m y = true → Rev0.normalizeRoute y m = y := by
    intro y hy
    unfold Rev0.normalizeRoute
    by_cases h1 : (["home", "latest", "watch"] : List String).contains y = true
    · rw [if_pos h1]
    · rcases hy with hy | hy
      · exact absurd hy h1
      · rw [if_neg h1, if_pos hy]
  have h2 : ∀ y : String, y = "home" ∨ y = "latest" ∨ hasKey m y = true →
      Rev2.normalizeRoute y m = y := by
    intro y hy
    unfold Rev2.normalizeRoute
    by_cases h1 : y = "home" ∨ y = "latest"
    · rw [if_pos h1]
    · rcases hy with hy | hy | hy
      · exact absurd (Or.inl hy) h1
      · exact absurd (Or.inr hy) h1
      · rw [if_neg h1, if_pos hy]
  have hhome0 : ∀ z : String,
      ¬ ((["home", "latest", "watch"] : List String).contains z = true ∨
        hasKey m z = true) → Rev0.normalizeRoute z m = "home" := by
    intro z hz
    push_neg at hz
    unfold Rev0.normalizeRoute
    rw [if_neg hz.1, if_neg hz.2]
  have hhome2 : ∀ z : String,
      ¬ (z = "home" ∨ z = "latest" ∨ hasKey m z = true) →
        Rev2.normalizeRoute z m = "home" := by
    intro z hz
    push_neg at hz
    unfold Rev2.normalizeRoute
    rw [if_neg ?_, if_neg hz.2.2]
    rintro (h | h)
    · exact hz.1 h
    · exact hz.2.1 h
  refine ⟨?_, ?_, ⟨?_, h0 x⟩, ⟨?_, h2 x⟩, hhome0 x, hhome2 x⟩
  · by_cases hv : (["home", "latest", "watch"] : List String).contains x =
        true ∨ hasKey m x = true
    · rw [h0 x hv]
      exact h0 x hv
    · rw [hhome0 x hv]
      exact h0 "home" (Or.inl (by decide))
  · by_cases hv : x = "home" ∨ x = "latest" ∨ hasKey m x = true
    · rw [h2 x hv]
      exact h2 x hv
    · rw [hhome2 x hv]
      exact h2 "home" (Or.inl rfl)
  · intro hx
    by_cases hv : (["home", "latest", "watch"] : List String).contains x =
        true ∨ hasKey m x = true
    · exact hv
    · rw [hhome0 x hv] at hx
      exact absurd (Or.inl (hx ▸ (by decide :
        (["home", "latest", "watch"] : List String).contains "home" = true)))
        hv
  · intro hx
    by_cases hv : x = "home" ∨ x = "latest" ∨ hasKey m x = true
    · exact hv
    · rw [hhome2 x hv] at hx
      exact absurd (Or.inl hx.symm) hv

/-- Witness for C6: `"a1"` is a key of `snapA`'s index and is kept; the
unknown token `"ghost"` is coerced to `home` by both revisions. -/
theorem normalizeRoute_total_idempotent_witness :
    Rev2.normalizeRoute "a1" (buildIndex snapA) = "a1" ∧
    Rev0.normalizeRoute "ghost" (buildIndex snapA) = "home" ∧
    Rev2.normalizeRoute "ghost" (buildIndex snapA) = "home" := by
  have ha := normalizeRoute_total_idempotent "a1" (buildIndex snapA)
  have hg := normalizeRoute_total_idempotent "ghost" (buildIndex snapA)
  exact ⟨ha.2.2.2.1.2 (by decide), hg.2.2.2.2.1 (by decide),
    hg.2.2.2.2.2 (by decide)⟩

/-- C7: completion of the commit machinery — the animated
`startViewTransition(...).finished` promise or the non-animated
before-paint `commitDOM()` promise — always clears the in-flight guard,
whether it fulfils or rejects: the registered `finally` callbacks of both
branches, and hence the `settle` step of both revisions, leave
`isNavigating = false`. -/
theorem transition_completion_clears_guard (s : CoreState) (o : Bool) :
    (onTransitionFinished o s).isNavigating = false ∧
    (onCommitFinished o s).isNavigating = false ∧
    (Rev0.step s (.settle o)).isNavigating = false ∧
    (Rev2.step s (.settle o)).isNavigating = false := by
  refine ⟨rfl, rfl, ?_, ?_⟩ <;>
    cases hb : s.animated <;>
    simp [Rev0.step, Rev2.step, hb, onTransitionFinished, onCommitFinished]
